import Mathlib

/-!
A verification development for the dependency-aware service startup
orchestrator of the control-panel application (`main.go`).

The orchestration engine (`startServicesWithProgress`), the health-wait
loop it contains, the UI update slice that consumes its progress events
(`model.Update`, `progressMsg` case), the channel reader
(`readNextStartupProgress`) and the one-shot dependency expansion
(`startServiceIntelligent`) are embedded shallowly: external container
state (docker invocations) is abstracted into an `Env` of canned driver
answers, and each run is rendered as the finite list of observable
actions (progress events sent, channel closure, start commands issued,
inspect polls) it performs.  Log lines are modelled one constructor per
`fmt.Sprintf` template of the source, carrying the formatted values that
matter; timestamps are modelled in whole seconds (the code sleeps 2s
after a start command and polls every 3s).  `float64` progress values
are modelled in `ℚ`; every arithmetic operation used by the source
(add, mul, div by constants, comparison) is order-exact, so order and
equality facts transfer.
-/

namespace Atlas

/-- One constructor per `fmt.Sprintf` log template in
`startServicesWithProgress` (main.go lines 961-1195), carrying the
formatted values.  Durations are in whole seconds. -/
inductive LogLine where
  | checkingDocker
  | dockerNotRunning
  | composeFileNotFound
  | startingService (dn : String)
  | alreadyRunning (dn : String)
  | runningCmd (dn svc : String)
  | composeFallback (dn : String)
  | startError (dn err : String)
  | cmdOutput (dn out : String)
  | exitCode (dn : String) (code : Int)
  | startedWithCompose (dn : String)
  | startedWithDockerCompose (dn : String)
  | notFoundAfterStart (dn : String)
  | containerLogs (dn out : String)
  | containerRunning (dn health : String)
  | healthyNote (dn health : String) (took : Nat)
  | waitingHealthNote (dn : String) (elapsed : Nat) (health : String)
  | notRunningYet (dn : String)
  | timeoutButRunning (dn health : String)
  | mayNotBeStarted (dn : String)
deriving DecidableEq, Repr

/-- The `startupProgress` struct (main.go lines 120-127) restricted to the
fields the claims constrain: `serviceName`, `step`, `progress`, `logs`.
(`elapsedTime`/`estimatedTotal` are wall-clock display data constrained by
no claim.) -/
structure Event where
  serviceName : String
  step : String
  progress : ℚ
  logs : List LogLine
deriving DecidableEq, Repr

/-- An observable action of one orchestration run: a progress message sent
on the channel, the channel closure, an external start command
(`docker compose up -d` / `docker-compose up -d`), or a
`getContainerInfo` inspection of a container. -/
inductive Action where
  | send (e : Event)
  | close
  | startCmd (tool svc : String)
  | poll (svc : String)
deriving DecidableEq, Repr

/-- Canned answers of the external container runtime for one run.  Output
strings are taken post-`TrimSpace`.  `inspectLoop s k` is what
`getContainerInfo s` reports at the k-th iteration of the health-wait
loop; `inspectAfterStart`/`inspectFinal` are the calls before (line 1098)
and after (line 1173) the loop. -/
structure Env where
  dockerOk : Bool
  composeFileExists : Bool
  alreadyRunning : String → Bool
  startOk : String → Bool
  startOutput : String → String
  fallbackOk : String → Bool
  fallbackOutput : String → String
  startErrText : String → String
  fallbackExitCode : String → Option Int
  inspectAfterStart : String → Bool × String
  tailLogs : String → Option String
  inspectLoop : String → Nat → Bool × String
  inspectFinal : String → Bool × String

/-- The hard-coded start order of `startServicesWithProgress`
(main.go line 1007). -/
def servicesList : List String := ["falkordb", "ollama", "graphiti-mcp"]

/-- `getServiceDisplayName` (main.go lines 1218-1228). -/
def displayName (containerName : String) : String :=
  if containerName = "falkordb" then "FalkorDB"
  else if containerName = "ollama" then "Ollama"
  else if containerName = "graphiti-mcp" then "Graphiti MCP"
  else containerName

/-- `checkInterval` of the health-wait loop, in seconds (line 1132). -/
def checkInterval : Nat := 3

/-- `maxWait` of the health-wait loop, in seconds (lines 1128-1131). -/
def maxWaitFor (s : String) : Nat := if s = "ollama" then 180 else 120

/-- Output truncation (`outputStr[:k] + "..."`, lines 1058-1060 and
1088-1090). -/
def trunc (k : Nat) (x : String) : String :=
  if k < x.length then x.take k ++ "..." else x

/-- The success-path output log line (lines 1085-1092): emitted only when
the captured output is nonempty, truncated to 200 characters. -/
def outLog (dn out : String) : List LogLine :=
  if out = "" then [] else [.cmdOutput dn (trunc 200 out)]

/-- The failure-path output log line (lines 1055-1062): truncated to 300
characters. -/
def errOutLog (dn out : String) : List LogLine :=
  if out = "" then [] else [.cmdOutput dn (trunc 300 out)]

/-- The exit-code log line (lines 1064-1066): emitted when the fallback
error is an `exec.ExitError`. -/
def exitLog (dn : String) : Option Int → List LogLine
  | some c => [.exitCode dn c]
  | none => []

/-- The `docker logs --tail 10` line after a start whose container is not
found (lines 1100-1109): emitted when the command succeeds with nonempty
output. -/
def tailLog (dn : String) : Option String → List LogLine
  | some out => if out = "" then [] else [.containerLogs dn (trunc 200 out)]
  | none => []

/-- The in-loop progress value (lines 1144-1150): `(i + 0.6 +
elapsed/maxWait*0.3) / total` clamped to `(i+1)/total`, with
`total = 3` and `elapsed = 3*k` seconds at loop iteration `k`. -/
def healthProgress (i mw k : Nat) : ℚ :=
  min (((i : ℚ) + 3/5 + ((3 * k : ℚ) / (mw : ℚ)) * (3/10)) / 3) (((i : ℚ) + 1) / 3)

/-- The health-wait loop (lines 1136-1170).  Iteration `k` runs at
`elapsed = 3*k` seconds after `healthCheckStart`; the loop condition is
`elapsed < maxWait && !healthCheckDone`.  Each iteration inspects the
container; on healthy/running it records the success note and stops; if
running but not yet healthy it sends a rate-limited progress update (the
update fires for every `k ≥ 1`: with a 3s sleep per iteration, each
iteration after the first is at least 3s past `lastUpdateTime`); if not
running it appends a note to the accumulated logs.  Returns (actions,
healthCheckDone, exit iteration index, accumulated logs).  `fuel` is a
structural-recursion bound; callers pass `fuel = mw`, which dominates the
iteration count `⌈mw/3⌉`, so the fuel-exhausted branch is never taken. -/
def healthLoop (env : Env) (s dn : String) (i mw : Nat) :
    Nat → Nat → List LogLine → List Action × Bool × Nat × List LogLine
  | k, 0, logs => ([], false, k, logs)
  | k, fuel + 1, logs =>
    if 3 * k < mw then
      let st := env.inspectLoop s k
      if st.1 then
        if st.2 = "healthy" ∨ st.2 = "running" then
          ([Action.poll s], true, k, logs ++ [LogLine.healthyNote dn st.2 (2 + 3 * k)])
        else
          let upd : List Action :=
            if 1 ≤ k then
              [Action.send ⟨dn, "waiting_health", healthProgress i mw k,
                [LogLine.waitingHealthNote dn (3 * k) st.2]⟩]
            else []
          let r := healthLoop env s dn i mw (k + 1) fuel logs
          (Action.poll s :: upd ++ r.1, r.2)
      else
        let r := healthLoop env s dn i mw (k + 1) fuel
          (logs ++ [LogLine.notRunningYet dn])
        (Action.poll s :: r.1, r.2)
    else ([], false, k, logs)

/-- The logs right after the 2s grace sleep and the line-1098 inspection
(lines 1097-1112): the running note or the not-found note plus the
`docker logs` tail. -/
def afterLogs (env : Env) (s dn : String) (logs1 : List LogLine) : List LogLine :=
  if (env.inspectAfterStart s).1 then
    logs1 ++ [LogLine.containerRunning dn (env.inspectAfterStart s).2]
  else logs1 ++ [LogLine.notFoundAfterStart dn] ++ tailLog dn (env.tailLogs s)

/-- The logs carried by the terminal `completed` event (lines 1172-1180):
the loop's accumulated logs, plus — when the wait timed out — the note
distinguishing a running-but-unconfirmed container from a missing one. -/
def finalLogs (env : Env) (s dn : String) (i : Nat) (logs1 : List LogLine) :
    List LogLine :=
  let r := healthLoop env s dn i (maxWaitFor s) 0 (maxWaitFor s) (afterLogs env s dn logs1)
  if r.2.1 then r.2.2.2
  else r.2.2.2 ++
    [if (env.inspectFinal s).1 then LogLine.timeoutButRunning dn (env.inspectFinal s).2
     else LogLine.mayNotBeStarted dn]

/-- The post-start segment of one service's slot (lines 1094-1192): the
2s grace sleep and inspection, the `waiting_health` event at
`(i + 0.6)/total`, the health-wait loop, the final inspection with the
timeout log note, and the terminal `completed` event at `(i+1)/total`. -/
def afterStart (env : Env) (s dn : String) (i : Nat) (logs1 : List LogLine) :
    List Action :=
  Action.poll s ::
    Action.send ⟨dn, "waiting_health", ((i : ℚ) + 3/5) / 3, afterLogs env s dn logs1⟩ ::
    (healthLoop env s dn i (maxWaitFor s) 0 (maxWaitFor s) (afterLogs env s dn logs1)).1 ++
    [Action.poll s,
      Action.send ⟨dn, "completed", ((i : ℚ) + 1) / 3, finalLogs env s dn i logs1⟩]

/-- One service's slot of `startServicesWithProgress` (lines 1011-1193):
the `starting` event at `i/total + 0.05`, the already-running fast path,
the two start-command spellings with the failure path, and `afterStart`. -/
def serviceRun (env : Env) (i : Nat) (s : String) : List Action :=
  let dn := displayName s
  let startingEv : Action :=
    .send ⟨dn, "starting", (i : ℚ) / 3 + 1/20, [.startingService dn]⟩
  if env.alreadyRunning s then
    [startingEv, .send ⟨dn, "completed", ((i : ℚ) + 1) / 3, [.alreadyRunning dn]⟩]
  else if env.startOk s then
    startingEv :: .startCmd "docker compose" s ::
      afterStart env s dn i
        ([.runningCmd dn s, .startedWithCompose dn] ++ outLog dn (env.startOutput s))
  else if env.fallbackOk s then
    startingEv :: .startCmd "docker compose" s :: .startCmd "docker-compose" s ::
      afterStart env s dn i
        ([.runningCmd dn s, .composeFallback dn, .startedWithDockerCompose dn] ++
          outLog dn (env.fallbackOutput s))
  else
    [startingEv, .startCmd "docker compose" s, .startCmd "docker-compose" s,
      .send ⟨dn, "failed", ((i : ℚ) + 1) / 3,
        [.runningCmd dn s, .composeFallback dn, .startError dn (env.startErrText s)] ++
          errOutLog dn (env.fallbackOutput s) ++ exitLog dn (env.fallbackExitCode s)⟩]

/-- The initial "System" `starting` event (lines 963-972), sent before any
preflight check. -/
def sysStartEv : Action := .send ⟨"System", "starting", 0, [.checkingDocker]⟩

/-- The full action trace of one `startServicesWithProgress` run
(lines 961-1195): the "System" event, the `docker ps` and
`docker-compose.yml` preflight checks with their failure events, the
three service slots in the hard-coded order, and the channel closure. -/
def runActions (env : Env) : List Action :=
  if env.dockerOk then
    if env.composeFileExists then
      sysStartEv ::
        ((servicesList.enum.map fun p => serviceRun env p.1 p.2).flatten ++ [Action.close])
    else
      [sysStartEv, .send ⟨"System", "failed", 0, [.composeFileNotFound]⟩, .close]
  else
    [sysStartEv, .send ⟨"System", "failed", 0, [.dockerNotRunning]⟩, .close]

/-- The events sent on the progress channel, in order. -/
def sends (tr : List Action) : List Event :=
  tr.filterMap fun a => match a with | .send e => some e | _ => none

/-- The events sent for one service name, in order. -/
def eventsFor (tr : List Action) (name : String) : List Event :=
  (sends tr).filter fun e => e.serviceName == name

/-- A terminal step string. -/
def isTerminalStep (st : String) : Bool := st == "completed" || st == "failed"

/-- The UI model slice owning the startup-run state (main.go lines 80-81):
the in-progress flag and the `startupProgress` map, modelled as an
association list keyed by service name (Go map iteration order is
irrelevant here: the update only counts and universally quantifies over
entries). -/
structure UIState where
  startupInProgress : Bool
  startupProgress : List (String × Event)
deriving DecidableEq, Repr

/-- Upsert into the `startupProgress` map
(`m.startupProgress[msg.progress.serviceName] = msg.progress`,
line 299). -/
def upsert (m : List (String × Event)) (k : String) (v : Event) :
    List (String × Event) :=
  if m.any fun p => p.1 == k then
    m.map fun p => if p.1 == k then (k, v) else p
  else m ++ [(k, v)]

/-- The `progressMsg` case of `model.Update` (lines 298-334): upsert the
event, and while the run is in progress clear the flag and trigger the
full service-status refresh (`checkServices`) exactly when at least 3 map
entries are terminal and every map entry is terminal
(`completedCount >= 3 && allCompleted`, lines 311-328).  Returns the new
state and whether the refresh was triggered. -/
def uiStep (st : UIState) (e : Event) : UIState × Bool :=
  let m := upsert st.startupProgress e.serviceName e
  if st.startupInProgress then
    let completedCount := (m.filter fun p => isTerminalStep p.2.step).length
    let allCompleted := m.all fun p => isTerminalStep p.2.step
    if 3 ≤ completedCount ∧ allCompleted then
      ({ startupInProgress := false, startupProgress := m }, true)
    else
      ({ startupInProgress := true, startupProgress := m }, false)
  else ({ st with startupProgress := m }, false)

/-- The UI state right after the "s" key starts a run
(lines 224-228): flag set, map cleared. -/
def uiInit : UIState := { startupInProgress := true, startupProgress := [] }

/-- Fold a run's event sequence through the UI update loop, recording
whether any step triggered the status refresh. -/
def uiProcess (st : UIState) (es : List Event) : UIState × Bool :=
  es.foldl (fun acc e => ((uiStep acc.1 e).1, acc.2 || (uiStep acc.1 e).2)) (st, false)

/-- The progress channel: buffered events not yet consumed, and whether
the producer has closed it. -/
structure Channel where
  buffer : List Event
  closed : Bool
deriving DecidableEq, Repr

/-- A receive as performed by `readNextStartupProgress`
(lines 1204-1216): a buffered event is dequeued; on a closed, drained
channel Go's receive returns immediately with `ok = false` and the
function returns the nil-message sentinel (`none`); on an open, empty
channel the receive blocks — the outer `none` marks that no result is
produced. -/
def chanReceive : Channel → Option (Option Event × Channel)
  | ⟨e :: rest, c⟩ => some (some e, ⟨rest, c⟩)
  | ⟨[], true⟩ => some (none, ⟨[], true⟩)
  | ⟨[], false⟩ => none

/-- The static dependency map of `startServiceIntelligent`
(lines 1354-1358), keyed by container name. -/
def dependenciesMap (cn : String) : List String :=
  if cn = "graphiti-mcp" then ["falkordb", "ollama"]
  else if cn = "atlas-engine" then ["graphiti-mcp", "falkordb"]
  else if cn = "atlas-dashboard" then ["graphiti-mcp", "falkordb"]
  else []

/-- `getContainerName` (lines 932-941); a Go map lookup misses to `""`. -/
def getContainerName (serviceName : String) : String :=
  if serviceName = "Ollama" then "ollama"
  else if serviceName = "FalkorDB" then "falkordb"
  else if serviceName = "Graphiti MCP" then "graphiti-mcp"
  else if serviceName = "Atlas Engine" then "atlas-engine"
  else if serviceName = "Atlas Dashboard" then "atlas-dashboard"
  else ""

/-- The ordered sequence of services `startServiceIntelligent`
(lines 1346-1409) brings up for a target, given which containers are
already running: each direct dependency that is not running, in the order
listed in the dependency map, then the target itself.  Dependencies are
not expanded recursively. -/
def intelligentStartSequence (running : String → Bool) (name : String) :
    List String :=
  let cn := getContainerName name
  ((dependenciesMap cn).filter fun d => !running d) ++ [cn]

/-- An environment in which every service container is already running. -/
def envAllRunning : Env where
  dockerOk := true
  composeFileExists := true
  alreadyRunning := fun _ => true
  startOk := fun _ => true
  startOutput := fun _ => ""
  fallbackOk := fun _ => true
  fallbackOutput := fun _ => ""
  startErrText := fun _ => ""
  fallbackExitCode := fun _ => none
  inspectAfterStart := fun _ => (true, "running")
  tailLogs := fun _ => none
  inspectLoop := fun _ _ => (true, "running")
  inspectFinal := fun _ => (true, "running")

/-- An environment in which nothing is running beforehand, every start
command succeeds, every container is up but reports an unhealthy state
through the whole wait, and the final inspection finds the container
gone: every health wait runs to its timeout. -/
def envDead : Env where
  dockerOk := true
  composeFileExists := true
  alreadyRunning := fun _ => false
  startOk := fun _ => true
  startOutput := fun _ => ""
  fallbackOk := fun _ => true
  fallbackOutput := fun _ => ""
  startErrText := fun _ => ""
  fallbackExitCode := fun _ => none
  inspectAfterStart := fun _ => (true, "unhealthy")
  tailLogs := fun _ => none
  inspectLoop := fun _ _ => (true, "unhealthy")
  inspectFinal := fun _ => (false, "unknown")

/-- An environment in which the docker daemon is unreachable. -/
def envNoDocker : Env :=
  { envAllRunning with dockerOk := false }

/-- An environment in which both start-command spellings fail for every
service (the runtime rejects the compose file, say). -/
def envStartFail : Env :=
  { envDead with
    startOk := fun _ => false
    fallbackOk := fun _ => false
    startErrText := fun _ => "exit status 1"
    fallbackExitCode := fun _ => some 1 }

/-- The driver never reports the container healthy or running during the
health-wait loop: the poll times out. -/
def NeverHealthy (env : Env) (s : String) : Prop :=
  ∀ k, (env.inspectLoop s k).1 = true →
    (env.inspectLoop s k).2 ≠ "healthy" ∧ (env.inspectLoop s k).2 ≠ "running"

/-- A health wait that timed out ends the service's slot with exactly one
terminal event, which is a `completed` event (never `failed`) whose last
log line distinguishes a still-running container from a missing one. -/
def TimeoutAlwaysCompleted (env : Env) (i : Nat) (s : String) : Prop :=
  ∃ e, (sends (serviceRun env i s)).filter (fun x => isTerminalStep x.step) = [e] ∧
    e.step = "completed" ∧
    e.logs.getLast? = some
      (if (env.inspectFinal s).1 then
        LogLine.timeoutButRunning (displayName s) (env.inspectFinal s).2
       else LogLine.mayNotBeStarted (displayName s))

/-- An already-running service emits a single `completed` event carrying
the "already running" note at progress `(i+1)/n`, emits no
`waiting_health` step, and is never inspected by the health poller. -/
def AlreadyRunningFastPath (env : Env) (s : String) : Prop :=
  ((eventsFor (runActions env) (displayName s)).filter
      fun e => e.step == "completed").length = 1 ∧
  (⟨displayName s, "completed", ((servicesList.indexOf s : ℚ) + 1) / 3,
      [LogLine.alreadyRunning (displayName s)]⟩ : Event) ∈
    eventsFor (runActions env) (displayName s) ∧
  (∀ e ∈ eventsFor (runActions env) (displayName s), e.step ≠ "waiting_health") ∧
  Action.poll s ∉ runActions env

/-- A service whose start command fails under both spellings reaches a
unique terminal event, a `failed` one whose logs carry the error text,
and the run still emits events for every service in the order. -/
def StartFailureIsolated (env : Env) (s : String) : Prop :=
  (∃ e, (eventsFor (runActions env) (displayName s)).filter
      (fun x => isTerminalStep x.step) = [e] ∧
    e.step = "failed" ∧
    LogLine.startError (displayName s) (env.startErrText s) ∈ e.logs) ∧
  ∀ t ∈ servicesList, eventsFor (runActions env) (displayName t) ≠ []

/-- The health wait times out (it never flags success) yet concludes
within `maxWait` plus one poll interval (whatever logs it carries), and
the service's slot still contains exactly one terminal event. -/
def HealthWaitBounded (env : Env) (i : Nat) (s : String) : Prop :=
  (∀ logs,
    (healthLoop env s (displayName s) i (maxWaitFor s) 0 (maxWaitFor s) logs).2.1
        = false ∧
    3 * (healthLoop env s (displayName s) i (maxWaitFor s) 0
        (maxWaitFor s) logs).2.2.1 ≤ maxWaitFor s + checkInterval) ∧
  ((sends (serviceRun env i s)).filter fun e => isTerminalStep e.step).length = 1

/-- The per-slot apportionment the code actually computes: `starting` at
`i/3 + 0.05` (five absolute percentage points into the slot's base),
`waiting_health` at `healthProgress` values (a jump to 60% of the slot,
then 30% of the slot spread linearly over elapsed/maxWait, clamped to the
slot end), and terminal events at `(i+1)/3`. -/
def SlotApportionment (env : Env) (i : Nat) (s : String) : Prop :=
  ∀ e ∈ sends (serviceRun env i s),
    (e.step = "starting" ∧ e.progress = (i : ℚ) / 3 + 1/20) ∨
    (e.step = "waiting_health" ∧ ∃ k, e.progress = healthProgress i (maxWaitFor s) k) ∨
    ((e.step = "completed" ∨ e.step = "failed") ∧ e.progress = ((i : ℚ) + 1) / 3)

/-- The claimed per-slot `starting` baseline, read off the spec text: a
service's `starting` event sits approximately 5% of the way into its own
slot `(i/n, (i+1)/n)`, i.e. at `i/n + 0.05 * (1/n)`. -/
def specSlotStartingProgress (i n : Nat) : ℚ :=
  (i : ℚ) / (n : ℚ) + (1/20) * (1 / (n : ℚ))

/-- The claimed health-wait interpolation, read off the spec text: the
remaining approximately 40% of the slot is covered linearly in
elapsed/maxWait, clamped to the slot's upper bound. -/
def specHealthProgress (i n : Nat) (elapsed mw : Nat) : ℚ :=
  min (((i : ℚ) + 3/5 + ((elapsed : ℚ) / (mw : ℚ)) * (2/5)) / (n : ℚ))
    (((i : ℚ) + 1) / (n : ℚ))

/-- A run that fails its preflight checks emits exactly one `failed`
event under the pseudo-service "System", issues no start command at all,
and ends by closing the channel. -/
def PreflightFailureIsolated (env : Env) : Prop :=
  ((sends (runActions env)).filter
      (fun e => e.serviceName == "System" && e.step == "failed")).length = 1 ∧
  (∀ t s, Action.startCmd t s ∉ runActions env) ∧
  (runActions env).getLast? = some Action.close

/-- The channel is closed exactly once, as the last action of the run,
and receiving on the closed, drained channel returns the nil-message
sentinel instead of blocking. -/
def BusClosedOnce (env : Env) : Prop :=
  (∃ l, runActions env = l ++ [Action.close] ∧ Action.close ∉ l) ∧
  chanReceive ⟨[], true⟩ = some (none, ⟨[], true⟩)

/-- The shape of the sequence `startServiceIntelligent` brings up:
duplicate-free, the target last, and every not-yet-running direct
dependency listed before the target.  (Transitive dependencies are not
expanded — that failure is recorded separately.) -/
def DependencySequenceShape (running : String → Bool) (name : String) : Prop :=
  (intelligentStartSequence running name).Nodup ∧
  (intelligentStartSequence running name).getLast? = some (getContainerName name) ∧
  ∀ d ∈ dependenciesMap (getContainerName name), running d = false →
    d ∈ (intelligentStartSequence running name).dropLast

@[simp]
theorem sends_nil : sends [] = [] := rfl

@[simp]
theorem sends_cons_send (e : Event) (tr : List Action) :
    sends (Action.send e :: tr) = e :: sends tr := rfl

@[simp]
theorem sends_cons_close (tr : List Action) :
    sends (Action.close :: tr) = sends tr := rfl

@[simp]
theorem sends_cons_startCmd (t s : String) (tr : List Action) :
    sends (Action.startCmd t s :: tr) = sends tr := rfl

@[simp]
theorem sends_cons_poll (s : String) (tr : List Action) :
    sends (Action.poll s :: tr) = sends tr := rfl

@[simp]
theorem sends_append (l1 l2 : List Action) :
    sends (l1 ++ l2) = sends l1 ++ sends l2 :=
  List.filterMap_append l1 l2 _

theorem mem_sends {e : Event} {tr : List Action} :
    e ∈ sends tr ↔ Action.send e ∈ tr := by
  unfold sends
  rw [List.mem_filterMap]
  constructor
  · rintro ⟨a, ha, hfa⟩
    cases a <;> simp_all
  · intro h
    exact ⟨Action.send e, h, rfl⟩

theorem healthProgress_le_slotEnd (i mw k : Nat) :
    healthProgress i mw k ≤ ((i : ℚ) + 1) / 3 :=
  min_le_right _ _

theorem waiting_le_slotEnd (i : Nat) : ((i : ℚ) + 3/5) / 3 ≤ ((i : ℚ) + 1) / 3 := by
  apply div_le_div_of_nonneg_right ?_ (by norm_num)
  · exact add_le_add_left (by norm_num) _

theorem waiting_le_healthProgress (i mw k : Nat) :
    ((i : ℚ) + 3/5) / 3 ≤ healthProgress i mw k := by
  unfold healthProgress
  refine le_min ?_ (waiting_le_slotEnd i)
  apply div_le_div_of_nonneg_right ?_ (by norm_num)
  have : (0 : ℚ) ≤ ((3 * k : ℚ) / (mw : ℚ)) * (3/10) := by positivity
  linarith

theorem healthProgress_zero (i mw : Nat) :
    healthProgress i mw 0 = ((i : ℚ) + 3/5) / 3 := by
  unfold healthProgress
  rw [min_eq_left]
  · norm_num
  · have h := waiting_le_slotEnd i
    norm_num at h ⊢
    exact h

theorem healthProgress_mono (i mw : Nat) {k k' : Nat} (h : k ≤ k') :
    healthProgress i mw k ≤ healthProgress i mw k' := by
  unfold healthProgress
  rcases Nat.eq_zero_or_pos mw with h0 | h0
  · subst h0
    simp
  · refine min_le_min ?_ le_rfl
    have hmw : (0 : ℚ) < (mw : ℚ) := by exact_mod_cast h0
    have hk : (3 * k : ℚ) ≤ (3 * k' : ℚ) := by
      have : (k : ℚ) ≤ (k' : ℚ) := by exact_mod_cast h
      linarith
    gcongr

theorem slotStart_le_waiting (i : Nat) :
    (i : ℚ) / 3 + 1/20 ≤ ((i : ℚ) + 3/5) / 3 := by
  rw [add_div]
  exact add_le_add_left (by norm_num) _

theorem slotStart_le_slotEnd (i : Nat) :
    (i : ℚ) / 3 + 1/20 ≤ ((i : ℚ) + 1) / 3 := by
  rw [add_div]
  exact add_le_add_left (by norm_num) _

theorem healthLoop_fuelZero (env : Env) (s dn : String) (i mw k : Nat)
    (logs : List LogLine) :
    healthLoop env s dn i mw k 0 logs = ([], false, k, logs) := rfl

theorem healthLoop_stop (env : Env) (s dn : String) (i mw k n : Nat)
    (logs : List LogLine) (h1 : ¬ 3 * k < mw) :
    healthLoop env s dn i mw k (n + 1) logs = ([], false, k, logs) := by
  rw [healthLoop, if_neg h1]

theorem healthLoop_healthy (env : Env) (s dn : String) (i mw k n : Nat)
    (logs : List LogLine) (h1 : 3 * k < mw) (h2 : (env.inspectLoop s k).1 = true)
    (h3 : (env.inspectLoop s k).2 = "healthy" ∨ (env.inspectLoop s k).2 = "running") :
    healthLoop env s dn i mw k (n + 1) logs =
      ([Action.poll s], true, k,
        logs ++ [LogLine.healthyNote dn (env.inspectLoop s k).2 (2 + 3 * k)]) := by
  rw [healthLoop, if_pos h1, if_pos h2, if_pos h3]

theorem healthLoop_unhealthy (env : Env) (s dn : String) (i mw k n : Nat)
    (logs : List LogLine) (h1 : 3 * k < mw) (h2 : (env.inspectLoop s k).1 = true)
    (h3 : ¬ ((env.inspectLoop s k).2 = "healthy" ∨ (env.inspectLoop s k).2 = "running")) :
    healthLoop env s dn i mw k (n + 1) logs =
      (Action.poll s ::
        (if 1 ≤ k then
          [Action.send ⟨dn, "waiting_health", healthProgress i mw k,
            [LogLine.waitingHealthNote dn (3 * k) (env.inspectLoop s k).2]⟩]
         else []) ++ (healthLoop env s dn i mw (k + 1) n logs).1,
        (healthLoop env s dn i mw (k + 1) n logs).2) := by
  rw [healthLoop, if_pos h1, if_pos h2, if_neg h3]

theorem healthLoop_notRunning (env : Env) (s dn : String) (i mw k n : Nat)
    (logs : List LogLine) (h1 : 3 * k < mw) (h2 : (env.inspectLoop s k).1 = false) :
    healthLoop env s dn i mw k (n + 1) logs =
      (Action.poll s ::
        (healthLoop env s dn i mw (k + 1) n (logs ++ [LogLine.notRunningYet dn])).1,
        (healthLoop env s dn i mw (k + 1) n (logs ++ [LogLine.notRunningYet dn])).2) := by
  rw [healthLoop, if_pos h1, if_neg (by simp [h2])]

theorem healthLoop_actions (env : Env) (s dn : String) (i mw : Nat) :
    ∀ fuel k logs, ∀ a ∈ (healthLoop env s dn i mw k fuel logs).1,
      a = Action.poll s ∨
      ∃ h k', k ≤ k' ∧
        a = Action.send ⟨dn, "waiting_health", healthProgress i mw k',
          [LogLine.waitingHealthNote dn (3 * k') h]⟩ := by
  intro fuel
  induction fuel with
  | zero =>
    intro k logs a ha
    rw [healthLoop_fuelZero] at ha
    simp at ha
  | succ n ih =>
    intro k logs a ha
    by_cases h1 : 3 * k < mw
    · cases h2 : (env.inspectLoop s k).1 with
      | false =>
        rw [healthLoop_notRunning env s dn i mw k n logs h1 h2] at ha
        rcases List.mem_cons.mp ha with ha | ha
        · exact Or.inl ha
        · rcases ih (k + 1) (logs ++ [LogLine.notRunningYet dn]) a ha with h | ⟨hh, k', hk', hae⟩
          · exact Or.inl h
          · exact Or.inr ⟨hh, k', Nat.le_of_succ_le hk', hae⟩
      | true =>
        by_cases h3 : (env.inspectLoop s k).2 = "healthy" ∨ (env.inspectLoop s k).2 = "running"
        · rw [healthLoop_healthy env s dn i mw k n logs h1 h2 h3] at ha
          simp at ha
          exact Or.inl ha
        · rw [healthLoop_unhealthy env s dn i mw k n logs h1 h2 h3] at ha
          rcases List.mem_cons.mp ha with ha | ha
          · exact Or.inl ha
          rcases List.mem_append.mp ha with ha | ha
          · by_cases h4 : 1 ≤ k
            · rw [if_pos h4] at ha
              rcases List.mem_singleton.mp ha with rfl
              exact Or.inr ⟨(env.inspectLoop s k).2, k, le_rfl, rfl⟩
            · rw [if_neg h4] at ha
              simp at ha
          · rcases ih (k + 1) logs a ha with h | ⟨hh, k', hk', hae⟩
            · exact Or.inl h
            · exact Or.inr ⟨hh, k', Nat.le_of_succ_le hk', hae⟩
    · rw [healthLoop_stop env s dn i mw k n logs h1] at ha
      simp at ha

theorem healthLoop_not_done (env : Env) (s dn : String) (i mw : Nat)
    (h : NeverHealthy env s) :
    ∀ fuel k logs, (healthLoop env s dn i mw k fuel logs).2.1 = false := by
  intro fuel
  induction fuel with
  | zero =>
    intro k logs
    rw [healthLoop_fuelZero]
  | succ n ih =>
    intro k logs
    by_cases h1 : 3 * k < mw
    · cases h2 : (env.inspectLoop s k).1 with
      | false =>
        rw [healthLoop_notRunning env s dn i mw k n logs h1 h2]
        exact ih (k + 1) _
      | true =>
        have h3 : ¬ ((env.inspectLoop s k).2 = "healthy" ∨ (env.inspectLoop s k).2 = "running") := by
          rcases h k h2 with ⟨ha, hb⟩
          rintro (hc | hc)
          · exact ha hc
          · exact hb hc
        rw [healthLoop_unhealthy env s dn i mw k n logs h1 h2 h3]
        exact ih (k + 1) _
    · rw [healthLoop_stop env s dn i mw k n logs h1]

theorem healthLoop_exit_bound (env : Env) (s dn : String) (i mw : Nat) :
    ∀ fuel k logs, 3 * k < mw + 3 →
      3 * (healthLoop env s dn i mw k fuel logs).2.2.1 < mw + 3 := by
  intro fuel
  induction fuel with
  | zero =>
    intro k logs hk
    rw [healthLoop_fuelZero]
    exact hk
  | succ n ih =>
    intro k logs hk
    by_cases h1 : 3 * k < mw
    · have hk1 : 3 * (k + 1) < mw + 3 := by omega
      cases h2 : (env.inspectLoop s k).1 with
      | false =>
        rw [healthLoop_notRunning env s dn i mw k n logs h1 h2]
        exact ih (k + 1) _ hk1
      | true =>
        by_cases h3 : (env.inspectLoop s k).2 = "healthy" ∨ (env.inspectLoop s k).2 = "running"
        · rw [healthLoop_healthy env s dn i mw k n logs h1 h2 h3]
          change 3 * k < mw + 3
          omega
        · rw [healthLoop_unhealthy env s dn i mw k n logs h1 h2 h3]
          exact ih (k + 1) _ hk1
    · rw [healthLoop_stop env s dn i mw k n logs h1]
      exact hk

theorem healthLoop_chain (env : Env) (s dn : String) (i mw : Nat) :
    ∀ fuel k logs,
      List.Chain' (· ≤ ·)
        ((sends (healthLoop env s dn i mw k fuel logs).1).map Event.progress) ∧
      ∀ q ∈ (sends (healthLoop env s dn i mw k fuel logs).1).map Event.progress,
        healthProgress i mw k ≤ q ∧ q ≤ ((i : ℚ) + 1) / 3 := by
  intro fuel
  induction fuel with
  | zero =>
    intro k logs
    rw [healthLoop_fuelZero]
    simp
  | succ n ih =>
    intro k logs
    by_cases h1 : 3 * k < mw
    · cases h2 : (env.inspectLoop s k).1 with
      | false =>
        rw [healthLoop_notRunning env s dn i mw k n logs h1 h2]
        rcases ih (k + 1) (logs ++ [LogLine.notRunningYet dn]) with ⟨hc, hb⟩
        refine ⟨by simpa using hc, ?_⟩
        intro q hq
        simp only [sends_cons_poll] at hq
        rcases hb q hq with ⟨hlo, hhi⟩
        exact ⟨le_trans (healthProgress_mono i mw (Nat.le_succ k)) hlo, hhi⟩
      | true =>
        by_cases h3 : (env.inspectLoop s k).2 = "healthy" ∨ (env.inspectLoop s k).2 = "running"
        · rw [healthLoop_healthy env s dn i mw k n logs h1 h2 h3]
          simp [sends]
        · rw [healthLoop_unhealthy env s dn i mw k n logs h1 h2 h3]
          rcases ih (k + 1) logs with ⟨hc, hb⟩
          have hmono := healthProgress_mono i mw (Nat.le_succ k)
          by_cases h4 : 1 ≤ k
          · rw [if_pos h4]
            simp only [sends_append, sends_cons_poll, sends_cons_send, sends_nil,
              List.cons_append, List.nil_append, List.map_cons, List.map_append]
            constructor
            · rw [List.chain'_cons']
              refine ⟨?_, hc⟩
              intro q hq
              have hqm : q ∈ (sends (healthLoop env s dn i mw (k + 1) n logs).1).map
                  Event.progress := List.mem_of_mem_head? hq
              exact le_trans hmono (hb q hqm).1
            · intro q hq
              rcases List.mem_cons.mp hq with rfl | hq
              · exact ⟨le_rfl, healthProgress_le_slotEnd i mw k⟩
              · rcases hb q hq with ⟨hlo, hhi⟩
                exact ⟨le_trans hmono hlo, hhi⟩
          · rw [if_neg h4]
            simp only [sends_cons_poll, List.nil_append]
            refine ⟨hc, ?_⟩
            intro q hq
            rcases hb q hq with ⟨hlo, hhi⟩
            exact ⟨le_trans hmono hlo, hhi⟩
    · rw [healthLoop_stop env s dn i mw k n logs h1]
      simp

theorem healthLoop_sends_names (env : Env) (s dn : String) (i mw : Nat)
    (fuel k : Nat) (logs : List LogLine) :
    ∀ e ∈ sends (healthLoop env s dn i mw k fuel logs).1,
      e.serviceName = dn ∧ e.step = "waiting_health" ∧
        ∃ k', e.progress = healthProgress i mw k' := by
  intro e he
  rcases healthLoop_actions env s dn i mw fuel k logs (Action.send e)
      (mem_sends.mp he) with h | ⟨hh, k', _, hae⟩
  · cases h
  · rcases Action.send.injEq .. ▸ hae with rfl
    exact ⟨rfl, rfl, k', rfl⟩

theorem serviceRun_already (env : Env) (i : Nat) (s : String)
    (h : env.alreadyRunning s = true) :
    serviceRun env i s =
      [Action.send ⟨displayName s, "starting", (i : ℚ) / 3 + 1/20,
          [LogLine.startingService (displayName s)]⟩,
        Action.send ⟨displayName s, "completed", ((i : ℚ) + 1) / 3,
          [LogLine.alreadyRunning (displayName s)]⟩] := by
  rw [serviceRun, if_pos h]

theorem serviceRun_startOk (env : Env) (i : Nat) (s : String)
    (h : env.alreadyRunning s = false) (h2 : env.startOk s = true) :
    serviceRun env i s =
      Action.send ⟨displayName s, "starting", (i : ℚ) / 3 + 1/20,
          [LogLine.startingService (displayName s)]⟩ ::
        Action.startCmd "docker compose" s ::
        afterStart env s (displayName s) i
          ([LogLine.runningCmd (displayName s) s,
            LogLine.startedWithCompose (displayName s)] ++
            outLog (displayName s) (env.startOutput s)) := by
  rw [serviceRun, if_neg (by simp [h]), if_pos h2]

theorem serviceRun_fallback (env : Env) (i : Nat) (s : String)
    (h : env.alreadyRunning s = false) (h2 : env.startOk s = false)
    (h3 : env.fallbackOk s = true) :
    serviceRun env i s =
      Action.send ⟨displayName s, "starting", (i : ℚ) / 3 + 1/20,
          [LogLine.startingService (displayName s)]⟩ ::
        Action.startCmd "docker compose" s :: Action.startCmd "docker-compose" s ::
        afterStart env s (displayName s) i
          ([LogLine.runningCmd (displayName s) s,
            LogLine.composeFallback (displayName s),
            LogLine.startedWithDockerCompose (displayName s)] ++
            outLog (displayName s) (env.fallbackOutput s)) := by
  rw [serviceRun, if_neg (by simp [h]), if_neg (by simp [h2]), if_pos h3]

theorem serviceRun_bothFail (env : Env) (i : Nat) (s : String)
    (h : env.alreadyRunning s = false) (h2 : env.startOk s = false)
    (h3 : env.fallbackOk s = false) :
    serviceRun env i s =
      [Action.send ⟨displayName s, "starting", (i : ℚ) / 3 + 1/20,
          [LogLine.startingService (displayName s)]⟩,
        Action.startCmd "docker compose" s, Action.startCmd "docker-compose" s,
        Action.send ⟨displayName s, "failed", ((i : ℚ) + 1) / 3,
          [LogLine.runningCmd (displayName s) s,
            LogLine.composeFallback (displayName s),
            LogLine.startError (displayName s) (env.startErrText s)] ++
            errOutLog (displayName s) (env.fallbackOutput s) ++
            exitLog (displayName s) (env.fallbackExitCode s)⟩] := by
  rw [serviceRun, if_neg (by simp [h]), if_neg (by simp [h2]), if_neg (by simp [h3])]

theorem afterStart_actions (env : Env) (s dn : String) (i : Nat)
    (logs1 : List LogLine) :
    ∀ a ∈ afterStart env s dn i logs1,
      a = Action.poll s ∨
      ∃ e, a = Action.send e ∧ e.serviceName = dn ∧
        ((e.step = "waiting_health" ∧
            ∃ k, e.progress = healthProgress i (maxWaitFor s) k) ∨
         (e.step = "completed" ∧ e.progress = ((i : ℚ) + 1) / 3)) := by
  intro a ha
  rw [afterStart] at ha
  rcases List.mem_cons.mp ha with rfl | ha
  · exact Or.inl rfl
  rcases List.mem_cons.mp ha with rfl | ha
  · exact Or.inr ⟨_, rfl, rfl, Or.inl ⟨rfl, 0, (healthProgress_zero i (maxWaitFor s)).symm⟩⟩
  rcases List.mem_append.mp ha with ha | ha
  · rcases healthLoop_actions env s dn i (maxWaitFor s) (maxWaitFor s) 0 _ a ha
        with h | ⟨hh, k', _, rfl⟩
    · exact Or.inl h
    · exact Or.inr ⟨_, rfl, rfl, Or.inl ⟨rfl, k', rfl⟩⟩
  rcases List.mem_cons.mp ha with rfl | ha
  · exact Or.inl rfl
  rcases List.mem_cons.mp ha with rfl | ha
  · exact Or.inr ⟨_, rfl, rfl, Or.inr ⟨rfl, rfl⟩⟩
  cases ha

theorem serviceRun_actions (env : Env) (i : Nat) (s : String) :
    ∀ a ∈ serviceRun env i s,
      a = Action.poll s ∨ (∃ t, a = Action.startCmd t s) ∨
      ∃ e, a = Action.send e ∧ e.serviceName = displayName s ∧
        ((e.step = "starting" ∧ e.progress = (i : ℚ) / 3 + 1/20) ∨
         (e.step = "waiting_health" ∧
            ∃ k, e.progress = healthProgress i (maxWaitFor s) k) ∨
         ((e.step = "completed" ∨ e.step = "failed") ∧
            e.progress = ((i : ℚ) + 1) / 3)) := by
  intro a ha
  by_cases h : env.alreadyRunning s = true
  · rw [serviceRun_already env i s h] at ha
    rcases List.mem_cons.mp ha with rfl | ha
    · exact Or.inr (Or.inr ⟨_, rfl, rfl, Or.inl ⟨rfl, rfl⟩⟩)
    rcases List.mem_cons.mp ha with rfl | ha
    · exact Or.inr (Or.inr ⟨_, rfl, rfl, Or.inr (Or.inr ⟨Or.inl rfl, rfl⟩)⟩)
    cases ha
  · rw [Bool.not_eq_true] at h
    by_cases h2 : env.startOk s = true
    · rw [serviceRun_startOk env i s h h2] at ha
      rcases List.mem_cons.mp ha with rfl | ha
      · exact Or.inr (Or.inr ⟨_, rfl, rfl, Or.inl ⟨rfl, rfl⟩⟩)
      rcases List.mem_cons.mp ha with rfl | ha
      · exact Or.inr (Or.inl ⟨_, rfl⟩)
      rcases afterStart_actions env s (displayName s) i _ a ha
          with hp | ⟨e, rfl, hn, he⟩
      · exact Or.inl hp
      · refine Or.inr (Or.inr ⟨e, rfl, hn, ?_⟩)
        rcases he with ⟨hs', hk⟩ | ⟨hs', hp'⟩
        · exact Or.inr (Or.inl ⟨hs', hk⟩)
        · exact Or.inr (Or.inr ⟨Or.inl hs', hp'⟩)
    · rw [Bool.not_eq_true] at h2
      by_cases h3 : env.fallbackOk s = true
      · rw [serviceRun_fallback env i s h h2 h3] at ha
        rcases List.mem_cons.mp ha with rfl | ha
        · exact Or.inr (Or.inr ⟨_, rfl, rfl, Or.inl ⟨rfl, rfl⟩⟩)
        rcases List.mem_cons.mp ha with rfl | ha
        · exact Or.inr (Or.inl ⟨_, rfl⟩)
        rcases List.mem_cons.mp ha with rfl | ha
        · exact Or.inr (Or.inl ⟨_, rfl⟩)
        rcases afterStart_actions env s (displayName s) i _ a ha
            with hp | ⟨e, rfl, hn, he⟩
        · exact Or.inl hp
        · refine Or.inr (Or.inr ⟨e, rfl, hn, ?_⟩)
          rcases he with ⟨hs', hk⟩ | ⟨hs', hp'⟩
          · exact Or.inr (Or.inl ⟨hs', hk⟩)
          · exact Or.inr (Or.inr ⟨Or.inl hs', hp'⟩)
      · rw [Bool.not_eq_true] at h3
        rw [serviceRun_bothFail env i s h h2 h3] at ha
        rcases List.mem_cons.mp ha with rfl | ha
        · exact Or.inr (Or.inr ⟨_, rfl, rfl, Or.inl ⟨rfl, rfl⟩⟩)
        rcases List.mem_cons.mp ha with rfl | ha
        · exact Or.inr (Or.inl ⟨_, rfl⟩)
        rcases List.mem_cons.mp ha with rfl | ha
        · exact Or.inr (Or.inl ⟨_, rfl⟩)
        rcases List.mem_cons.mp ha with rfl | ha
        · exact Or.inr (Or.inr ⟨_, rfl, rfl, Or.inr (Or.inr ⟨Or.inr rfl, rfl⟩)⟩)
        cases ha

theorem sends_serviceRun_names (env : Env) (i : Nat) (s : String) :
    ∀ e ∈ sends (serviceRun env i s), e.serviceName = displayName s := by
  intro e he
  rcases serviceRun_actions env i s (Action.send e) (mem_sends.mp he) with
    h | ⟨t, h⟩ | ⟨e', he', hn, _⟩
  · cases h
  · cases h
  · rcases Action.send.injEq .. ▸ he' with rfl
    exact hn

theorem serviceRun_filter_ne (env : Env) (i : Nat) (s name : String)
    (h : name ≠ displayName s) :
    (sends (serviceRun env i s)).filter (fun e => e.serviceName == name) = [] := by
  rw [List.filter_eq_nil_iff]
  intro e he
  rw [sends_serviceRun_names env i s e he]
  simpa using fun hc => h hc.symm

theorem serviceRun_filter_self (env : Env) (i : Nat) (s : String) :
    (sends (serviceRun env i s)).filter (fun e => e.serviceName == displayName s) =
      sends (serviceRun env i s) := by
  rw [List.filter_eq_self]
  intro e he
  rw [sends_serviceRun_names env i s e he]
  simp

theorem serviceRun_poll_eq (env : Env) (i : Nat) (s s' : String)
    (h : Action.poll s' ∈ serviceRun env i s) : s' = s := by
  rcases serviceRun_actions env i s (Action.poll s') h with hp | ⟨t, hp⟩ | ⟨e, hp, _, _⟩
  · exact Action.poll.injEq .. ▸ hp
  · cases hp
  · cases hp

theorem serviceRun_no_close (env : Env) (i : Nat) (s : String) :
    Action.close ∉ serviceRun env i s := by
  intro h
  rcases serviceRun_actions env i s Action.close h with hp | ⟨t, hp⟩ | ⟨e, hp, _, _⟩
  · cases hp
  · cases hp
  · cases hp

theorem serviceRun_sends_first (env : Env) (i : Nat) (s : String) :
    ∃ rest, sends (serviceRun env i s) =
      (⟨displayName s, "starting", (i : ℚ) / 3 + 1/20,
        [LogLine.startingService (displayName s)]⟩ : Event) :: rest := by
  by_cases h : env.alreadyRunning s = true
  · rw [serviceRun_already env i s h]
    exact ⟨_, rfl⟩
  · rw [Bool.not_eq_true] at h
    by_cases h2 : env.startOk s = true
    · rw [serviceRun_startOk env i s h h2]
      exact ⟨_, rfl⟩
    · rw [Bool.not_eq_true] at h2
      by_cases h3 : env.fallbackOk s = true
      · rw [serviceRun_fallback env i s h h2 h3]
        exact ⟨_, rfl⟩
      · rw [Bool.not_eq_true] at h3
        rw [serviceRun_bothFail env i s h h2 h3]
        exact ⟨_, rfl⟩

theorem afterStart_sends_chain (env : Env) (s dn : String) (i : Nat)
    (logs1 : List LogLine) :
    List.Chain' (· ≤ ·)
      ((sends (afterStart env s dn i logs1)).map Event.progress) ∧
    ∀ q ∈ (sends (afterStart env s dn i logs1)).map Event.progress,
      ((i : ℚ) + 3/5) / 3 ≤ q ∧ q ≤ ((i : ℚ) + 1) / 3 := by
  rw [afterStart]
  rcases healthLoop_chain env s dn i (maxWaitFor s) (maxWaitFor s) 0
      (afterLogs env s dn logs1) with ⟨hc, hb⟩
  rw [healthProgress_zero i (maxWaitFor s)] at hb
  simp only [sends_cons_poll, sends_cons_send, sends_append, sends_nil,
    List.cons_append, List.nil_append, List.map_cons, List.map_append]
  constructor
  · rw [List.chain'_cons']
    constructor
    · intro q hq
      have hqm := List.mem_of_mem_head? hq
      rcases List.mem_append.mp hqm with hql | hql
      · exact (hb q hql).1
      · rcases List.mem_singleton.mp hql with rfl
        exact waiting_le_slotEnd i
    · rw [List.chain'_append]
      refine ⟨hc, by simp, ?_⟩
      intro x hx y hy
      rcases List.mem_singleton.mp (List.mem_of_mem_head? hy) with rfl
      exact (hb x (List.mem_of_mem_getLast? hx)).2
  · intro q hq
    rcases List.mem_cons.mp hq with rfl | hq
    · exact ⟨le_rfl, waiting_le_slotEnd i⟩
    rcases List.mem_append.mp hq with hq | hq
    · exact hb q hq
    · rcases List.mem_singleton.mp hq with rfl
      exact ⟨waiting_le_slotEnd i, le_rfl⟩

theorem serviceRun_chain (env : Env) (i : Nat) (s : String) :
    List.Chain' (· ≤ ·) ((sends (serviceRun env i s)).map Event.progress) := by
  by_cases h : env.alreadyRunning s = true
  · rw [serviceRun_already env i s h]
    simp only [sends_cons_send, sends_nil, List.map_cons, List.map_nil]
    rw [List.chain'_pair]
    exact slotStart_le_slotEnd i
  · rw [Bool.not_eq_true] at h
    have key : ∀ logs1, List.Chain' (· ≤ ·)
        (((⟨displayName s, "starting", (i : ℚ) / 3 + 1/20,
            [LogLine.startingService (displayName s)]⟩ : Event) ::
          sends (afterStart env s (displayName s) i logs1)).map Event.progress) := by
      intro logs1
      rcases afterStart_sends_chain env s (displayName s) i logs1 with ⟨hc, hb⟩
      rw [List.map_cons, List.chain'_cons']
      refine ⟨?_, hc⟩
      intro q hq
      have hqm := List.mem_of_mem_head? hq
      exact le_trans (slotStart_le_waiting i) (hb q hqm).1
    by_cases h2 : env.startOk s = true
    · rw [serviceRun_startOk env i s h h2]
      simpa using key _
    · rw [Bool.not_eq_true] at h2
      by_cases h3 : env.fallbackOk s = true
      · rw [serviceRun_fallback env i s h h2 h3]
        simpa using key _
      · rw [Bool.not_eq_true] at h3
        rw [serviceRun_bothFail env i s h h2 h3]
        simp only [sends_cons_send, sends_cons_startCmd, sends_nil, List.map_cons,
          List.map_nil]
        rw [List.chain'_pair]
        exact slotStart_le_slotEnd i

theorem isTerminalStep_starting : isTerminalStep "starting" = false := rfl

theorem isTerminalStep_waiting : isTerminalStep "waiting_health" = false := rfl

theorem isTerminalStep_completed : isTerminalStep "completed" = true := rfl

theorem isTerminalStep_failed : isTerminalStep "failed" = true := rfl

theorem healthLoop_no_terminal (env : Env) (s dn : String) (i mw fuel k : Nat)
    (logs : List LogLine) :
    (sends (healthLoop env s dn i mw k fuel logs).1).filter
      (fun e => isTerminalStep e.step) = [] := by
  rw [List.filter_eq_nil_iff]
  intro e he
  rcases healthLoop_sends_names env s dn i mw fuel k logs e he with ⟨_, hstep, _⟩
  rw [hstep, isTerminalStep_waiting]
  simp

theorem afterStart_terminal_filter (env : Env) (s dn : String) (i : Nat)
    (logs1 : List LogLine) :
    (sends (afterStart env s dn i logs1)).filter (fun e => isTerminalStep e.step) =
      [⟨dn, "completed", ((i : ℚ) + 1) / 3, finalLogs env s dn i logs1⟩] := by
  rw [afterStart]
  simp only [sends_cons_poll, sends_cons_send, sends_append, sends_nil,
    List.cons_append, List.nil_append, List.filter_cons, List.filter_append,
    isTerminalStep_waiting, isTerminalStep_completed,
    healthLoop_no_terminal env s dn i (maxWaitFor s) (maxWaitFor s) 0
      (afterLogs env s dn logs1)]
  simp

theorem serviceRun_one_terminal (env : Env) (i : Nat) (s : String) :
    ((sends (serviceRun env i s)).filter fun e => isTerminalStep e.step).length = 1 := by
  by_cases h : env.alreadyRunning s = true
  · rw [serviceRun_already env i s h]
    rfl
  · rw [Bool.not_eq_true] at h
    by_cases h2 : env.startOk s = true
    · rw [serviceRun_startOk env i s h h2]
      simp only [sends_cons_send, sends_cons_startCmd, List.filter_cons,
        isTerminalStep_starting, afterStart_terminal_filter]
      simp
    · rw [Bool.not_eq_true] at h2
      by_cases h3 : env.fallbackOk s = true
      · rw [serviceRun_fallback env i s h h2 h3]
        simp only [sends_cons_send, sends_cons_startCmd, List.filter_cons,
          isTerminalStep_starting, afterStart_terminal_filter]
        simp
      · rw [Bool.not_eq_true] at h3
        rw [serviceRun_bothFail env i s h h2 h3]
        rfl

theorem runActions_happy (env : Env) (hd : env.dockerOk = true)
    (hc : env.composeFileExists = true) :
    runActions env = sysStartEv ::
      ((serviceRun env 0 "falkordb" ++
        (serviceRun env 1 "ollama" ++ (serviceRun env 2 "graphiti-mcp" ++ []))) ++
        [Action.close]) := by
  have henum : servicesList.enum = [(0, "falkordb"), (1, "ollama"), (2, "graphiti-mcp")] := rfl
  rw [runActions, if_pos hd, if_pos hc, henum]
  simp only [List.map_cons, List.map_nil, List.flatten_cons, List.flatten_nil]

theorem eventsFor_happy (env : Env) (hd : env.dockerOk = true)
    (hc : env.composeFileExists = true) (name : String) :
    eventsFor (runActions env) name =
      (if ("System" : String) = name then
        [(⟨"System", "starting", 0, [LogLine.checkingDocker]⟩ : Event)] else []) ++
      ((sends (serviceRun env 0 "falkordb")).filter (fun e => e.serviceName == name) ++
        ((sends (serviceRun env 1 "ollama")).filter (fun e => e.serviceName == name) ++
          (sends (serviceRun env 2 "graphiti-mcp")).filter
            (fun e => e.serviceName == name))) := by
  rw [eventsFor, runActions_happy env hd hc, sysStartEv]
  simp only [sends_cons_send, sends_cons_close, sends_append, sends_nil,
    List.append_nil, List.filter_cons, List.filter_append]
  by_cases hn : ("System" : String) = name
  · simp [beq_iff_eq, hn]
  · simp [beq_iff_eq, hn]

theorem eventsFor_falkordb (env : Env) (hd : env.dockerOk = true)
    (hc : env.composeFileExists = true) :
    eventsFor (runActions env) "FalkorDB" = sends (serviceRun env 0 "falkordb") := by
  rw [eventsFor_happy env hd hc "FalkorDB", if_neg (by decide)]
  have e0 := serviceRun_filter_self env 0 "falkordb"
  rw [show displayName "falkordb" = "FalkorDB" from rfl] at e0
  rw [e0, serviceRun_filter_ne env 1 "ollama" "FalkorDB" (by decide),
    serviceRun_filter_ne env 2 "graphiti-mcp" "FalkorDB" (by decide)]
  simp

theorem eventsFor_ollama (env : Env) (hd : env.dockerOk = true)
    (hc : env.composeFileExists = true) :
    eventsFor (runActions env) "Ollama" = sends (serviceRun env 1 "ollama") := by
  rw [eventsFor_happy env hd hc "Ollama", if_neg (by decide)]
  have e1 := serviceRun_filter_self env 1 "ollama"
  rw [show displayName "ollama" = "Ollama" from rfl] at e1
  rw [e1, serviceRun_filter_ne env 0 "falkordb" "Ollama" (by decide),
    serviceRun_filter_ne env 2 "graphiti-mcp" "Ollama" (by decide)]
  simp

theorem eventsFor_graphiti (env : Env) (hd : env.dockerOk = true)
    (hc : env.composeFileExists = true) :
    eventsFor (runActions env) "Graphiti MCP" = sends (serviceRun env 2 "graphiti-mcp") := by
  rw [eventsFor_happy env hd hc "Graphiti MCP", if_neg (by decide)]
  have e2 := serviceRun_filter_self env 2 "graphiti-mcp"
  rw [show displayName "graphiti-mcp" = "Graphiti MCP" from rfl] at e2
  rw [e2, serviceRun_filter_ne env 0 "falkordb" "Graphiti MCP" (by decide),
    serviceRun_filter_ne env 1 "ollama" "Graphiti MCP" (by decide)]
  simp

theorem eventsFor_system_happy (env : Env) (hd : env.dockerOk = true)
    (hc : env.composeFileExists = true) :
    eventsFor (runActions env) "System" =
      [(⟨"System", "starting", 0, [LogLine.checkingDocker]⟩ : Event)] := by
  rw [eventsFor_happy env hd hc "System", if_pos rfl,
    serviceRun_filter_ne env 0 "falkordb" "System" (by decide),
    serviceRun_filter_ne env 1 "ollama" "System" (by decide),
    serviceRun_filter_ne env 2 "graphiti-mcp" "System" (by decide)]
  simp

theorem eventsFor_happy_other (env : Env) (hd : env.dockerOk = true)
    (hc : env.composeFileExists = true) (name : String) (h1 : name ≠ "System")
    (h2 : name ≠ "FalkorDB") (h3 : name ≠ "Ollama") (h4 : name ≠ "Graphiti MCP") :
    eventsFor (runActions env) name = [] := by
  rw [eventsFor_happy env hd hc name, if_neg (fun hh => h1 hh.symm),
    serviceRun_filter_ne env 0 "falkordb" name
      (show name ≠ displayName "falkordb" from h2),
    serviceRun_filter_ne env 1 "ollama" name
      (show name ≠ displayName "ollama" from h3),
    serviceRun_filter_ne env 2 "graphiti-mcp" name
      (show name ≠ displayName "graphiti-mcp" from h4)]
  simp

theorem poll_not_mem_already (env : Env) (i : Nat) (s s' : String)
    (hr : env.alreadyRunning s = true) : Action.poll s' ∉ serviceRun env i s := by
  rw [serviceRun_already env i s hr]
  intro hm
  rcases List.mem_cons.mp hm with hh | hm
  · cases hh
  rcases List.mem_cons.mp hm with hh | hm
  · cases hh
  cases hm

theorem poll_not_mem_other (env : Env) (i : Nat) (s s' : String) (h : s' ≠ s) :
    Action.poll s' ∉ serviceRun env i s :=
  fun hm => h (serviceRun_poll_eq env i s s' hm)

theorem dependenciesMap_nodup (cn : String) : (dependenciesMap cn).Nodup := by
  unfold dependenciesMap
  split_ifs <;> decide

theorem self_not_mem_dependenciesMap (cn : String) : cn ∉ dependenciesMap cn := by
  unfold dependenciesMap
  split_ifs with h1 h2 h3
  · subst h1; decide
  · subst h2; decide
  · subst h3; decide
  · simp

theorem runActions_noDocker (env : Env) (hd : env.dockerOk = false) :
    runActions env = [sysStartEv,
      Action.send ⟨"System", "failed", 0, [LogLine.dockerNotRunning]⟩, Action.close] := by
  rw [runActions, if_neg (by simp [hd])]

theorem runActions_noCompose (env : Env) (hd : env.dockerOk = true)
    (hc : env.composeFileExists = false) :
    runActions env = [sysStartEv,
      Action.send ⟨"System", "failed", 0, [LogLine.composeFileNotFound]⟩, Action.close] := by
  rw [runActions, if_pos hd, if_neg (by simp [hc])]

theorem eventsFor_two_system (e2 : Event) (h2 : e2.serviceName = "System")
    (h2p : e2.progress = 0) (name : String) :
    List.Chain' (· ≤ ·)
      ((eventsFor [sysStartEv, Action.send e2, Action.close] name).map
        Event.progress) := by
  unfold eventsFor
  simp only [sysStartEv, sends_cons_send, sends_cons_close, sends_nil]
  by_cases hn : ("System" : String) = name
  · have hb : (("System" : String) == name) = true := by simpa [beq_iff_eq] using hn
    have hb2 : (e2.serviceName == name) = true := by simpa [beq_iff_eq, h2] using hn
    simp only [List.filter_cons, List.filter_nil, hb, hb2]
    simp [List.chain'_pair, h2p]
  · have hb : (("System" : String) == name) = false := by
      simpa [beq_iff_eq] using hn
    have hb2 : (e2.serviceName == name) = false := by
      simpa [beq_iff_eq, h2] using hn
    simp [List.filter_cons, hb, hb2]

/-- C6: within a single startup run, the `progress` values carried by any
one service's successive progress events form a non-decreasing sequence. -/
theorem C6_progress_monotone (env : Env) (name : String) :
    List.Chain' (· ≤ ·) ((eventsFor (runActions env) name).map Event.progress) := by
  by_cases hd : env.dockerOk = true
  · by_cases hc : env.composeFileExists = true
    · by_cases h1 : name = "FalkorDB"
      · subst h1
        rw [eventsFor_falkordb env hd hc]
        exact serviceRun_chain env 0 "falkordb"
      by_cases h2 : name = "Ollama"
      · subst h2
        rw [eventsFor_ollama env hd hc]
        exact serviceRun_chain env 1 "ollama"
      by_cases h3 : name = "Graphiti MCP"
      · subst h3
        rw [eventsFor_graphiti env hd hc]
        exact serviceRun_chain env 2 "graphiti-mcp"
      by_cases h4 : name = "System"
      · subst h4
        rw [eventsFor_system_happy env hd hc]
        simp
      · rw [eventsFor_happy_other env hd hc name h4 h1 h2 h3]
        simp
    · rw [Bool.not_eq_true] at hc
      rw [runActions_noCompose env hd hc]
      exact eventsFor_two_system _ rfl rfl name
  · rw [Bool.not_eq_true] at hd
    rw [runActions_noDocker env hd]
    exact eventsFor_two_system _ rfl rfl name

/-- C9: the progress channel receives exactly one closure, the closure is
the run's final action (so nothing is written after it and it follows the
last event of the final service), and a receive on the closed, drained
channel yields the nil-message sentinel instead of blocking. -/
theorem C9_bus_closed_once (env : Env) : BusClosedOnce env := by
  unfold BusClosedOnce
  refine ⟨?_, rfl⟩
  by_cases hd : env.dockerOk = true
  · by_cases hc : env.composeFileExists = true
    · refine ⟨sysStartEv ::
        (serviceRun env 0 "falkordb" ++
          (serviceRun env 1 "ollama" ++ (serviceRun env 2 "graphiti-mcp" ++ []))), ?_, ?_⟩
      · rw [runActions_happy env hd hc]
        simp
      · intro hm
        rcases List.mem_cons.mp hm with hh | hm
        · cases hh
        rcases List.mem_append.mp hm with hm | hm
        · exact serviceRun_no_close env 0 "falkordb" hm
        rcases List.mem_append.mp hm with hm | hm
        · exact serviceRun_no_close env 1 "ollama" hm
        rcases List.mem_append.mp hm with hm | hm
        · exact serviceRun_no_close env 2 "graphiti-mcp" hm
        cases hm
    · rw [Bool.not_eq_true] at hc
      refine ⟨[sysStartEv,
        Action.send ⟨"System", "failed", 0, [LogLine.composeFileNotFound]⟩], ?_, by decide⟩
      rw [runActions_noCompose env hd hc]
      rfl
  · rw [Bool.not_eq_true] at hd
    refine ⟨[sysStartEv,
      Action.send ⟨"System", "failed", 0, [LogLine.dockerNotRunning]⟩], ?_, by decide⟩
    rw [runActions_noDocker env hd]
    rfl

/-- C10: when either preflight check fails (docker unreachable, or
docker-compose.yml missing), the run emits exactly one `failed` event
under the pseudo-service "System", issues no start command for any
service, and closes the channel as its final action. -/
theorem C10_preflight_failure (env : Env)
    (h : ¬(env.dockerOk = true ∧ env.composeFileExists = true)) :
    PreflightFailureIsolated env := by
  have key : ∀ e2 : Event, e2.serviceName = "System" → e2.step = "failed" →
      ∀ tr, tr = [sysStartEv, Action.send e2, Action.close] →
      ((sends tr).filter
          (fun e => e.serviceName == "System" && e.step == "failed")).length = 1 ∧
      (∀ t s, Action.startCmd t s ∉ tr) ∧
      tr.getLast? = some Action.close := by
    rintro e2 hn hs tr rfl
    refine ⟨?_, ?_, rfl⟩
    · simp [sysStartEv, sends, List.filter_cons, hn, hs]
    · intro t s hm
      rcases List.mem_cons.mp hm with hh | hm
      · cases hh
      rcases List.mem_cons.mp hm with hh | hm
      · cases hh
      rcases List.mem_cons.mp hm with hh | hm
      · cases hh
      cases hm
  unfold PreflightFailureIsolated
  by_cases hd : env.dockerOk = true
  · have hc : env.composeFileExists = false := by
      rcases Bool.eq_false_or_eq_true env.composeFileExists with h2 | h2
      · exact absurd ⟨hd, h2⟩ h
      · exact h2
    exact key _ rfl rfl _ (runActions_noCompose env hd hc)
  · rw [Bool.not_eq_true] at hd
    exact key _ rfl rfl _ (runActions_noDocker env hd)

/-- C10 witness: the preflight hypothesis holds for the environment with
an unreachable docker daemon, and the theorem's conclusion follows there. -/
theorem C10_preflight_failure_witness :
    ¬(envNoDocker.dockerOk = true ∧ envNoDocker.composeFileExists = true) ∧
    PreflightFailureIsolated envNoDocker :=
  ⟨by decide, C10_preflight_failure envNoDocker (by decide)⟩

/-- C7 (amended): every progress event of a service's slot carries exactly
the code's apportionment — `starting` at `i/3 + 0.05` (five absolute
percentage points, not 5% of the slot), `waiting_health` at the 60%
jump-plus-30%-linear-interpolation values clamped to the slot end, and
terminal events at `(i+1)/3`. -/
theorem C7_amended_slot_apportionment (env : Env) (i : Nat) (s : String) :
    SlotApportionment env i s := by
  intro e he
  rcases serviceRun_actions env i s (Action.send e) (mem_sends.mp he) with
    h | ⟨t, h⟩ | ⟨e', he', _, hsteps⟩
  · cases h
  · cases h
  · rcases Action.send.injEq .. ▸ he' with rfl
    exact hsteps

/-- C7 counterexample: in a run where nothing is pre-running, Ollama's
`starting` event (slot i = 1 of 3) is emitted at progress 23/60 =
1/3 + 0.05, while the spec's "approximately 5% of the slot" puts it at
21/60 = 1/3 + 0.05·(1/3); and during Ollama's health wait the event at
elapsed 90s of maxWait 180s carries 7/12 (60% + half of a 30% share of
the slot) while the spec's "remaining ~40%" formula yields 3/5. -/
theorem C7_counterexample :
    ((eventsFor (runActions envDead) "Ollama").filter
        (fun e => e.step == "starting")).map Event.progress = [23/60] ∧
    specSlotStartingProgress 1 3 = 21/60 ∧ (23/60 : ℚ) ≠ 21/60 ∧
    (⟨"Ollama", "waiting_health", 7/12,
        [LogLine.waitingHealthNote "Ollama" 90 "unhealthy"]⟩ : Event) ∈
      eventsFor (runActions envDead) "Ollama" ∧
    specHealthProgress 1 3 90 180 = 3/5 ∧ (7/12 : ℚ) ≠ 3/5 := by
  with_unfolding_all decide

/-- C7 witness: the amended apportionment instantiated at Ollama's slot in
the all-running environment, evaluated at its `starting` event. -/
theorem C7_amended_witness :
    (⟨"Ollama", "starting", 23/60, [LogLine.startingService "Ollama"]⟩ : Event) ∈
      sends (serviceRun envAllRunning 1 "ollama") ∧
    (((⟨"Ollama", "starting", 23/60, [LogLine.startingService "Ollama"]⟩ : Event).step
        = "starting" ∧
      (⟨"Ollama", "starting", 23/60,
        [LogLine.startingService "Ollama"]⟩ : Event).progress = (1 : ℚ) / 3 + 1/20) ∨
    ((⟨"Ollama", "starting", 23/60, [LogLine.startingService "Ollama"]⟩ : Event).step
        = "waiting_health" ∧
      ∃ k, (⟨"Ollama", "starting", 23/60,
        [LogLine.startingService "Ollama"]⟩ : Event).progress =
          healthProgress 1 (maxWaitFor "ollama") k) ∨
    (((⟨"Ollama", "starting", 23/60, [LogLine.startingService "Ollama"]⟩ : Event).step
          = "completed" ∨
        (⟨"Ollama", "starting", 23/60,
          [LogLine.startingService "Ollama"]⟩ : Event).step = "failed") ∧
      (⟨"Ollama", "starting", 23/60,
        [LogLine.startingService "Ollama"]⟩ : Event).progress = ((1 : ℚ) + 1) / 3)) :=
  ⟨by with_unfolding_all decide,
    C7_amended_slot_apportionment envAllRunning 1 "ollama" _
      (by with_unfolding_all decide)⟩

/-- C8: when the poll never observes healthy/running, the health wait
still times out and concludes no later than `maxWait` plus one poll
interval after it began, and the service's slot carries exactly one
timeout-triggered terminal event. -/
theorem C8_health_wait_bounded (env : Env) (i : Nat) (s : String)
    (h3 : NeverHealthy env s) : HealthWaitBounded env i s := by
  constructor
  · intro logs
    refine ⟨healthLoop_not_done env s (displayName s) i (maxWaitFor s) h3
      (maxWaitFor s) 0 logs, ?_⟩
    have hb := healthLoop_exit_bound env s (displayName s) i (maxWaitFor s)
      (maxWaitFor s) 0 logs (by omega)
    unfold checkInterval
    omega
  · exact serviceRun_one_terminal env i s

theorem neverHealthy_envDead (s : String) : NeverHealthy envDead s := by
  intro k _
  have h2 : (envDead.inspectLoop s k).2 = "unhealthy" := rfl
  rw [h2]
  exact ⟨by decide, by decide⟩

/-- C8 witness: the never-healthy hypothesis holds in the dead
environment, and the bounded-wait conclusion follows there for the first
slot. -/
theorem C8_health_wait_bounded_witness :
    NeverHealthy envDead "falkordb" ∧ HealthWaitBounded envDead 0 "falkordb" :=
  ⟨neverHealthy_envDead "falkordb",
    C8_health_wait_bounded envDead 0 "falkordb" (neverHealthy_envDead "falkordb")⟩

/-- C1 counterexample: in the dead environment the final inspection finds
FalkorDB's container not running, yet the run emits no `failed` event for
it — the terminal event is `completed`, contradicting the claim that a
container not running at timeout yields `failed`. -/
theorem C1_counterexample :
    (envDead.inspectFinal "falkordb").1 = false ∧
    ((eventsFor (runActions envDead) "FalkorDB").filter
      fun e => e.step == "failed") = [] ∧
    ((eventsFor (runActions envDead) "FalkorDB").getLast?.map
      fun e => e.step) = some "completed" := by
  decide

/-- C1 (amended): on health-wait timeout the terminal event is always
`completed`, regardless of the container's running state; only the final
log line distinguishes "wait time exceeded but running" from "may not be
fully started". -/
theorem C1_amended_timeout_completed (env : Env) (i : Nat) (s : String)
    (h1 : env.alreadyRunning s = false)
    (h2 : env.startOk s = true ∨ (env.startOk s = false ∧ env.fallbackOk s = true))
    (h3 : NeverHealthy env s) :
    TimeoutAlwaysCompleted env i s := by
  have main : ∀ logs1 : List LogLine,
      (finalLogs env s (displayName s) i logs1).getLast? =
      some (if (env.inspectFinal s).1 then
        LogLine.timeoutButRunning (displayName s) (env.inspectFinal s).2
       else LogLine.mayNotBeStarted (displayName s)) := by
    intro logs1
    simp only [finalLogs]
    rw [healthLoop_not_done env s (displayName s) i (maxWaitFor s) h3 (maxWaitFor s) 0
      (afterLogs env s (displayName s) logs1)]
    simp only [Bool.false_eq_true, if_false]
    exact List.getLast?_concat _
  unfold TimeoutAlwaysCompleted
  rcases h2 with h2 | ⟨h2, h2b⟩
  · rw [serviceRun_startOk env i s h1 h2]
    refine ⟨⟨displayName s, "completed", ((i : ℚ) + 1) / 3,
      finalLogs env s (displayName s) i
        ([LogLine.runningCmd (displayName s) s,
          LogLine.startedWithCompose (displayName s)] ++
          outLog (displayName s) (env.startOutput s))⟩, ?_, rfl, main _⟩
    simp only [sends_cons_send, sends_cons_startCmd, List.filter_cons,
      isTerminalStep_starting, afterStart_terminal_filter]
    simp
  · rw [serviceRun_fallback env i s h1 h2 h2b]
    refine ⟨⟨displayName s, "completed", ((i : ℚ) + 1) / 3,
      finalLogs env s (displayName s) i
        ([LogLine.runningCmd (displayName s) s,
          LogLine.composeFallback (displayName s),
          LogLine.startedWithDockerCompose (displayName s)] ++
          outLog (displayName s) (env.fallbackOutput s))⟩, ?_, rfl, main _⟩
    simp only [sends_cons_send, sends_cons_startCmd, List.filter_cons,
      isTerminalStep_starting, afterStart_terminal_filter]
    simp

/-- C1 witness: the amended statement instantiated in the dead
environment, where FalkorDB is started, never becomes healthy, and is
gone at the final inspection. -/
theorem C1_amended_witness :
    envDead.alreadyRunning "falkordb" = false ∧ envDead.startOk "falkordb" = true ∧
    NeverHealthy envDead "falkordb" ∧ TimeoutAlwaysCompleted envDead 0 "falkordb" :=
  ⟨rfl, rfl, neverHealthy_envDead "falkordb",
    C1_amended_timeout_completed envDead 0 "falkordb" rfl (Or.inl rfl)
      (neverHealthy_envDead "falkordb")⟩

theorem poll_not_mem_runActions_happy (env : Env) (hd : env.dockerOk = true)
    (hc : env.composeFileExists = true) (s' : String)
    (h0 : Action.poll s' ∉ serviceRun env 0 "falkordb")
    (h1 : Action.poll s' ∉ serviceRun env 1 "ollama")
    (h2 : Action.poll s' ∉ serviceRun env 2 "graphiti-mcp") :
    Action.poll s' ∉ runActions env := by
  rw [runActions_happy env hd hc]
  intro hm
  rcases List.mem_cons.mp hm with hh | hm
  · cases hh
  rcases List.mem_append.mp hm with hm | hm
  · rcases List.mem_append.mp hm with hm | hm
    · exact h0 hm
    rcases List.mem_append.mp hm with hm | hm
    · exact h1 hm
    rcases List.mem_append.mp hm with hm | hm
    · exact h2 hm
    cases hm
  · rcases List.mem_singleton.mp hm with hh
    cases hh

theorem already_fast_path_aux (env : Env) (i : Nat) (s : String)
    (hr : env.alreadyRunning s = true)
    (hev : eventsFor (runActions env) (displayName s) = sends (serviceRun env i s))
    (hidx : servicesList.indexOf s = i)
    (hpoll : Action.poll s ∉ runActions env) : AlreadyRunningFastPath env s := by
  unfold AlreadyRunningFastPath
  rw [hev, hidx, serviceRun_already env i s hr]
  refine ⟨rfl, ?_, ?_, hpoll⟩
  · exact List.mem_cons.mpr (Or.inr (List.mem_singleton.mpr rfl))
  · intro e he
    rcases List.mem_cons.mp he with rfl | he
    · exact (by decide : ("starting" : String) ≠ "waiting_health")
    rcases List.mem_cons.mp he with rfl | he
    · exact (by decide : ("completed" : String) ≠ "waiting_health")
    cases he

/-- C4: a service that is already running when the run reaches it gets a
single `completed` event, carrying the "already running" note at
progress `(i+1)/n`, never gets a `waiting_health` step, and the health
poller is never invoked for it. -/
theorem C4_already_running_fast_path (env : Env) (s : String)
    (hd : env.dockerOk = true) (hc : env.composeFileExists = true)
    (hs : s ∈ servicesList) (hr : env.alreadyRunning s = true) :
    AlreadyRunningFastPath env s := by
  fin_cases hs
  · refine already_fast_path_aux env 0 "falkordb" hr ?_ rfl
      (poll_not_mem_runActions_happy env hd hc "falkordb"
        (poll_not_mem_already env 0 "falkordb" "falkordb" hr)
        (poll_not_mem_other env 1 "ollama" "falkordb" (by decide))
        (poll_not_mem_other env 2 "graphiti-mcp" "falkordb" (by decide)))
    rw [show displayName "falkordb" = "FalkorDB" from rfl]
    exact eventsFor_falkordb env hd hc
  · refine already_fast_path_aux env 1 "ollama" hr ?_ rfl
      (poll_not_mem_runActions_happy env hd hc "ollama"
        (poll_not_mem_other env 0 "falkordb" "ollama" (by decide))
        (poll_not_mem_already env 1 "ollama" "ollama" hr)
        (poll_not_mem_other env 2 "graphiti-mcp" "ollama" (by decide)))
    rw [show displayName "ollama" = "Ollama" from rfl]
    exact eventsFor_ollama env hd hc
  · refine already_fast_path_aux env 2 "graphiti-mcp" hr ?_ rfl
      (poll_not_mem_runActions_happy env hd hc "graphiti-mcp"
        (poll_not_mem_other env 0 "falkordb" "graphiti-mcp" (by decide))
        (poll_not_mem_other env 1 "ollama" "graphiti-mcp" (by decide))
        (poll_not_mem_already env 2 "graphiti-mcp" "graphiti-mcp" hr))
    rw [show displayName "graphiti-mcp" = "Graphiti MCP" from rfl]
    exact eventsFor_graphiti env hd hc

/-- C4 witness: the fast path instantiated for FalkorDB in the
environment where every container is already running. -/
theorem C4_already_running_witness :
    envAllRunning.dockerOk = true ∧ envAllRunning.composeFileExists = true ∧
    "falkordb" ∈ servicesList ∧ envAllRunning.alreadyRunning "falkordb" = true ∧
    AlreadyRunningFastPath envAllRunning "falkordb" :=
  ⟨rfl, rfl, by decide, rfl,
    C4_already_running_fast_path envAllRunning "falkordb" rfl rfl (by decide) rfl⟩

theorem eventsFor_nonempty (env : Env) (hd : env.dockerOk = true)
    (hc : env.composeFileExists = true) (t : String) (ht : t ∈ servicesList) :
    eventsFor (runActions env) (displayName t) ≠ [] := by
  fin_cases ht
  · rw [show displayName "falkordb" = "FalkorDB" from rfl, eventsFor_falkordb env hd hc]
    rcases serviceRun_sends_first env 0 "falkordb" with ⟨rest, hre⟩
    rw [hre]
    exact List.cons_ne_nil _ _
  · rw [show displayName "ollama" = "Ollama" from rfl, eventsFor_ollama env hd hc]
    rcases serviceRun_sends_first env 1 "ollama" with ⟨rest, hre⟩
    rw [hre]
    exact List.cons_ne_nil _ _
  · rw [show displayName "graphiti-mcp" = "Graphiti MCP" from rfl,
      eventsFor_graphiti env hd hc]
    rcases serviceRun_sends_first env 2 "graphiti-mcp" with ⟨rest, hre⟩
    rw [hre]
    exact List.cons_ne_nil _ _

theorem start_failure_aux (env : Env) (i : Nat) (s : String)
    (h1 : env.alreadyRunning s = false) (h2 : env.startOk s = false)
    (h3 : env.fallbackOk s = false)
    (hev : eventsFor (runActions env) (displayName s) = sends (serviceRun env i s)) :
    ∃ e, (eventsFor (runActions env) (displayName s)).filter
        (fun x => isTerminalStep x.step) = [e] ∧
      e.step = "failed" ∧
      LogLine.startError (displayName s) (env.startErrText s) ∈ e.logs := by
  rw [hev, serviceRun_bothFail env i s h1 h2 h3]
  refine ⟨⟨displayName s, "failed", ((i : ℚ) + 1) / 3,
    [LogLine.runningCmd (displayName s) s,
      LogLine.composeFallback (displayName s),
      LogLine.startError (displayName s) (env.startErrText s)] ++
      errOutLog (displayName s) (env.fallbackOutput s) ++
      exitLog (displayName s) (env.fallbackExitCode s)⟩, ?_, rfl, ?_⟩
  · rfl
  · simp

/-- C5: a service whose start command errors under both spellings reaches
`failed` as its unique terminal step, its logs contain the error text,
and the run still proceeds through every service in the order. -/
theorem C5_start_failure_isolated (env : Env) (s : String)
    (hd : env.dockerOk = true) (hc : env.composeFileExists = true)
    (hs : s ∈ servicesList) (h1 : env.alreadyRunning s = false)
    (h2 : env.startOk s = false) (h3 : env.fallbackOk s = false) :
    StartFailureIsolated env s := by
  refine ⟨?_, fun t ht => eventsFor_nonempty env hd hc t ht⟩
  fin_cases hs
  · refine start_failure_aux env 0 "falkordb" h1 h2 h3 ?_
    rw [show displayName "falkordb" = "FalkorDB" from rfl]
    exact eventsFor_falkordb env hd hc
  · refine start_failure_aux env 1 "ollama" h1 h2 h3 ?_
    rw [show displayName "ollama" = "Ollama" from rfl]
    exact eventsFor_ollama env hd hc
  · refine start_failure_aux env 2 "graphiti-mcp" h1 h2 h3 ?_
    rw [show displayName "graphiti-mcp" = "Graphiti MCP" from rfl]
    exact eventsFor_graphiti env hd hc

/-- C5 witness: the start-failure behaviour instantiated for FalkorDB
in the environment where both command spellings fail. -/
theorem C5_start_failure_witness :
    envStartFail.dockerOk = true ∧ envStartFail.composeFileExists = true ∧
    "falkordb" ∈ servicesList ∧ envStartFail.alreadyRunning "falkordb" = false ∧
    envStartFail.startOk "falkordb" = false ∧
    envStartFail.fallbackOk "falkordb" = false ∧
    StartFailureIsolated envStartFail "falkordb" :=
  ⟨rfl, rfl, by decide, rfl, rfl, rfl,
    C5_start_failure_isolated envStartFail "falkordb" rfl rfl (by decide) rfl rfl rfl⟩

/-- C3 counterexample: with nothing running, the sequence for target
"Atlas Engine" is [graphiti-mcp, falkordb, atlas-engine] — falkordb is a
declared dependency of graphiti-mcp yet is started after it, and the
transitive dependency ollama (via graphiti-mcp) is missing entirely. -/
theorem C3_counterexample :
    intelligentStartSequence (fun _ => false) "Atlas Engine" =
      ["graphiti-mcp", "falkordb", "atlas-engine"] ∧
    "falkordb" ∈ dependenciesMap "graphiti-mcp" ∧
    (intelligentStartSequence (fun _ => false) "Atlas Engine").indexOf "graphiti-mcp" <
      (intelligentStartSequence (fun _ => false) "Atlas Engine").indexOf "falkordb" ∧
    "ollama" ∉ intelligentStartSequence (fun _ => false) "Atlas Engine" := by
  decide

/-- C3 (amended): the sequence actually brought up is the target's direct
dependencies that are not already running, in the order the map lists
them, followed by the target: it is duplicate-free, the target comes
last, and every not-running direct dependency precedes the target — but
dependencies are expanded only one level. -/
theorem C3_amended_dependency_sequence (running : String → Bool) (name : String)
    (_h : getContainerName name ≠ "") : DependencySequenceShape running name := by
  unfold DependencySequenceShape intelligentStartSequence
  refine ⟨?_, List.getLast?_concat _, ?_⟩
  · rw [List.nodup_append]
    refine ⟨List.Nodup.filter _ (dependenciesMap_nodup _), List.nodup_singleton _, ?_⟩
    intro a ha hb
    rcases List.mem_singleton.mp hb with rfl
    exact self_not_mem_dependenciesMap _ (List.mem_of_mem_filter ha)
  · intro d hd hrun
    rw [List.dropLast_concat]
    exact List.mem_filter.mpr ⟨hd, by simp [hrun]⟩

/-- C3 amended witness: the sequence shape instantiated for target
"Atlas Engine" with no container running. -/
theorem C3_amended_witness :
    getContainerName "Atlas Engine" ≠ "" ∧
    DependencySequenceShape (fun _ => false) "Atlas Engine" :=
  ⟨by decide, C3_amended_dependency_sequence (fun _ => false) "Atlas Engine" (by decide)⟩

/-- C2: in the run where all three services are already running (every
requested service reaches a terminal entry), the UI still never clears
`startupInProgress` and never triggers the completion refresh, because
the "System" pseudo-entry stays at step "starting" and defeats the
`completedCount >= 3 && allCompleted` check — contradicting the code's
own comment and the spec's completion condition. -/
theorem C2_flag_never_cleared :
    (uiProcess uiInit (sends (runActions envAllRunning))).1.startupInProgress = true ∧
    (uiProcess uiInit (sends (runActions envAllRunning))).2 = false ∧
    ∀ s ∈ servicesList,
      ∃ p ∈ (uiProcess uiInit (sends (runActions envAllRunning))).1.startupProgress,
        p.1 = displayName s ∧ isTerminalStep p.2.step = true := by
  decide

end Atlas
